import Mathlib

/-!
Verification of src/main.go of run-command-on-git-revisions.

The Go program parses the flags -s, -e, -p and the trailing positional
arguments, then calls runCommandOnGitRevisions, which opens the repository
at the given path through git.PlainOpen and returns.  The embedding passes
the external effects explicitly: the repository store is a function from
paths to optional repositories, os.Getwd is a value of type
Except String String, and everything the program could do to the outside
world (running the user command, printing a report line) is recorded in an
event trace.
-/

/-- Abstract state of a git repository: commit names, parent edges, refs and
the checked-out position.  The Go code only receives an opaque handle from
git.PlainOpen and never inspects or mutates it. -/
structure Repo where
  commits : List String
  parents : List (String × String)
  refs : List (String × String)
  checkedOut : Option String
  deriving DecidableEq, Repr

/-- The filesystem of repositories: which path holds which repository.
Models what git.PlainOpen can see. -/
abbrev World := String → Option Repo

/-- Observable events the program could emit: executing the user command
against a revision, or printing a per-revision report line.  The stub in
src/main.go emits none of them. -/
inductive Event where
  | execCommand (rev : String) (args : List String)
  | report (line : String)
  deriving DecidableEq, Repr

/-- Models git.PlainOpen: open the repository at path, or fail when the path
does not name a valid repository. -/
def plainOpen (w : World) (path : String) : Except String Repo :=
  match w path with
  | some r => Except.ok r
  | none => Except.error "repository does not exist"

/-- Embeds runCommandOnGitRevisions, src/main.go lines 12 to 19: it opens the
repository at path, wrapping an open failure as an error; on success it
discards the handle and returns nil.  It emits no events and returns the
world unchanged, since git.PlainOpen only reads. -/
def runCommandOnGitRevisions (start endRev path : String) (args : List String)
    (w : World) : Except String Unit × List Event × World :=
  match plainOpen w path with
  | Except.error e => (Except.error ("opening repo: " ++ e), [], w)
  | Except.ok _repo => (Except.ok (), [], w)

/-- Exit behavior of main: every log.Fatalf and log.Fatal call exits with a
non-zero status carrying a message; otherwise main returns normally. -/
inductive MainOutcome where
  | fatal (msg : String)
  | ok
  deriving DecidableEq, Repr

/-- True exactly on the non-zero exits produced by log.Fatalf and
log.Fatal. -/
def MainOutcome.isFatal : MainOutcome → Bool
  | MainOutcome.fatal _ => true
  | MainOutcome.ok => false

/-- What one execution of main did: the arguments runCommandOnGitRevisions
was called with (or none when it was never reached), the emitted events, and
the exit behavior. -/
structure MainTrace where
  calledRun : Option (String × String × String × List String)
  events : List Event
  outcome : MainOutcome
  deriving DecidableEq, Repr

/-- Embeds the tail of main, src/main.go lines 43 to 50: fail when no
trailing command was given, otherwise call runCommandOnGitRevisions and turn
a returned error into log.Fatal. -/
def mainAfterFlags (startFlag endFlag pathFlag : String) (args : List String)
    (w : World) : MainTrace × World :=
  if args = [] then
    (⟨none, [], MainOutcome.fatal "no command specified"⟩, w)
  else
    match runCommandOnGitRevisions startFlag endFlag pathFlag args w with
    | (Except.error e, evs, w2) =>
        (⟨some (startFlag, endFlag, pathFlag, args), evs, MainOutcome.fatal e⟩, w2)
    | (Except.ok _, evs, w2) =>
        (⟨some (startFlag, endFlag, pathFlag, args), evs, MainOutcome.ok⟩, w2)

/-- Embeds main after flag.Parse, src/main.go lines 21 to 51: fail when -s is
empty, default -e to HEAD, then the -p block.  Note the Go source places the
assignment of the cwd to pathFlag inside the branch where os.Getwd failed,
after log.Fatalf, so when os.Getwd succeeds the path stays the empty string;
the embedding reproduces this faithfully. -/
def mainGo (startFlag endFlag pathFlag : String) (args : List String)
    (getwd : Except String String) (w : World) : MainTrace × World :=
  if startFlag = "" then
    (⟨none, [], MainOutcome.fatal "start flag missing"⟩, w)
  else if pathFlag = "" then
    match getwd with
    | Except.error e =>
        (⟨none, [], MainOutcome.fatal ("error getting cwd: " ++ e)⟩, w)
    | Except.ok _here =>
        mainAfterFlags startFlag (if endFlag = "" then "HEAD" else endFlag) pathFlag args w
  else
    mainAfterFlags startFlag (if endFlag = "" then "HEAD" else endFlag) pathFlag args w

/-- Direct parents of a revision in the commit graph. -/
def parentsOf (r : Repo) (rev : String) : List String :=
  (r.parents.filter (fun p => p.1 = rev)).map Prod.snd

/-- One step of the backward walk: every revision seen so far together with
all of their direct parents. -/
def reachStep (r : Repo) (seen : List String) : List String :=
  (seen ++ (seen.map (parentsOf r)).flatten).dedup

/-- Iterated backward walk for a bounded number of steps. -/
def reachable (r : Repo) : Nat → List String → List String
  | 0, seen => seen
  | Nat.succ n, seen => reachable r n (reachStep r seen)

/-- Modelled from the spec: a revision x is an ancestor of (or equal to) y
when x is reachable by following parent links backward from y.  The
RevisionResolver the spec describes is absent from src/main.go, so this
relation exists only to state what ancestry means at concrete inputs. -/
def isAncestor (r : Repo) (x y : String) : Bool :=
  x ∈ reachable r r.parents.length [y]

/-- A two-commit repository: commit b has parent a, HEAD points at b. -/
def repoA : Repo := ⟨["a", "b"], [("b", "a")], [("HEAD", "b")], some "b"⟩

/-- A world with exactly one valid repository, located at /repo. -/
def oneRepoWorld : World := fun p => if p = "/repo" then some repoA else none

/-- A world with no valid repository anywhere. -/
def emptyWorld : World := fun _ => none

/-- When the world holds no repository at path, the run returns the wrapped
open error, emits no events and leaves the world unchanged. -/
theorem run_open_fails (start endRev path : String) (args : List String)
    (w : World) (hw : w path = none) :
    runCommandOnGitRevisions start endRev path args w =
      (Except.error "opening repo: repository does not exist", [], w) := by
  unfold runCommandOnGitRevisions plainOpen
  rw [hw]
  rfl

/-- The run never changes the world: git.PlainOpen only reads. -/
theorem run_world (start endRev path : String) (args : List String)
    (w : World) :
    (runCommandOnGitRevisions start endRev path args w).2.2 = w := by
  unfold runCommandOnGitRevisions
  split <;> rfl

/-- When a command was supplied, main calls runCommandOnGitRevisions with
exactly the flags it was handed. -/
theorem mainAfterFlags_calledRun (startFlag endFlag pathFlag : String)
    (args : List String) (w : World) (ha : args ≠ []) :
    (mainAfterFlags startFlag endFlag pathFlag args w).1.calledRun =
      some (startFlag, endFlag, pathFlag, args) := by
  unfold mainAfterFlags
  rw [if_neg ha]
  split <;> rfl

/-- The tail of main never changes the world. -/
theorem mainAfterFlags_world (startFlag endFlag pathFlag : String)
    (args : List String) (w : World) :
    (mainAfterFlags startFlag endFlag pathFlag args w).2 = w := by
  unfold mainAfterFlags
  split
  · rfl
  · rcases h : runCommandOnGitRevisions startFlag endFlag pathFlag args w
      with ⟨res, evs, w2⟩
    have hw2 := run_world startFlag endFlag pathFlag args w
    rw [h] at hw2
    cases res <;> exact hw2

/-- Main never changes the world. -/
theorem mainGo_world (startFlag endFlag pathFlag : String)
    (args : List String) (getwd : Except String String) (w : World) :
    (mainGo startFlag endFlag pathFlag args getwd w).2 = w := by
  unfold mainGo
  split
  · rfl
  · split
    · cases getwd with
      | error e => rfl
      | ok d =>
          exact mainAfterFlags_world startFlag
            (if endFlag = "" then "HEAD" else endFlag) pathFlag args w
    · exact mainAfterFlags_world startFlag
        (if endFlag = "" then "HEAD" else endFlag) pathFlag args w

/-- C1: the documented cwd default of the -p flag is not applied.  At a
concrete invocation with -p absent and os.Getwd succeeding with /home/user,
main hands runCommandOnGitRevisions the empty string as the repository path
rather than the current working directory: the Go source performs the
assignment of the cwd to the flag only inside the branch where os.Getwd
failed, after log.Fatalf. -/
theorem path_default_not_applied :
    (mainGo "v1" "" "" ["make"] (Except.ok "/home/user") oneRepoWorld).1.calledRun =
      some ("v1", "HEAD", "", ["make"]) ∧ ("" : String) ≠ "/home/user" :=
  ⟨rfl, by decide⟩

/-- C2: for every path holding no valid repository, runCommandOnGitRevisions
returns the wrapped open error without executing any command, and main exits
non-zero having emitted no event. -/
theorem openError_aborts_run (start endRev path : String) (args : List String)
    (getwd : Except String String) (w : World)
    (hw : w path = none) (hs : start ≠ "") (hp : path ≠ "") (ha : args ≠ []) :
    (runCommandOnGitRevisions start endRev path args w).1 =
      Except.error "opening repo: repository does not exist" ∧
    (runCommandOnGitRevisions start endRev path args w).2.1 = [] ∧
    ((mainGo start endRev path args getwd w).1.outcome).isFatal = true ∧
    (mainGo start endRev path args getwd w).1.events = [] := by
  have h1 := run_open_fails start endRev path args w hw
  have h2 := run_open_fails start (if endRev = "" then "HEAD" else endRev)
    path args w hw
  have hm : mainGo start endRev path args getwd w =
      (⟨some (start, (if endRev = "" then "HEAD" else endRev), path, args), [],
        MainOutcome.fatal "opening repo: repository does not exist"⟩, w) := by
    unfold mainGo
    rw [if_neg hs, if_neg hp]
    unfold mainAfterFlags
    rw [if_neg ha, h2]
  exact ⟨by rw [h1], by rw [h1], by rw [hm]; rfl, by rw [hm]⟩

/-- Witness for C2 at a concrete invocation against an empty world. -/
theorem openError_aborts_run_witness :
    (runCommandOnGitRevisions "v1" "v2" "/nowhere" ["make"] emptyWorld).1 =
      Except.error "opening repo: repository does not exist" ∧
    (runCommandOnGitRevisions "v1" "v2" "/nowhere" ["make"] emptyWorld).2.1 = [] ∧
    ((mainGo "v1" "v2" "/nowhere" ["make"] (Except.ok "/home") emptyWorld).1.outcome).isFatal
      = true ∧
    (mainGo "v1" "v2" "/nowhere" ["make"] (Except.ok "/home") emptyWorld).1.events = [] :=
  openError_aborts_run "v1" "v2" "/nowhere" ["make"] (Except.ok "/home")
    emptyWorld rfl (by decide) (by decide) (by decide)

/-- C3: when the -s flag is absent, main terminates fatally before opening
the repository or running any command: runCommandOnGitRevisions is never
called, no event is emitted and the world is untouched. -/
theorem start_flag_required (endFlag pathFlag : String) (args : List String)
    (getwd : Except String String) (w : World) :
    mainGo "" endFlag pathFlag args getwd w =
      (⟨none, [], MainOutcome.fatal "start flag missing"⟩, w) := by
  simp [mainGo]

/-- C4: when no trailing positional arguments are supplied, main terminates
fatally and runCommandOnGitRevisions is never called, whatever the flags,
the cwd lookup and the world. -/
theorem command_required (startFlag endFlag pathFlag : String)
    (getwd : Except String String) (w : World) :
    ((mainGo startFlag endFlag pathFlag [] getwd w).1.outcome).isFatal = true ∧
    (mainGo startFlag endFlag pathFlag [] getwd w).1.calledRun = none := by
  unfold mainGo mainAfterFlags
  split
  · exact ⟨rfl, rfl⟩
  · split
    · cases getwd with
      | error e => exact ⟨rfl, rfl⟩
      | ok d => exact ⟨rfl, rfl⟩
    · exact ⟨rfl, rfl⟩

/-- C5: when the -e flag is absent, the end revision handed to
runCommandOnGitRevisions is the string HEAD, for every invocation that
reaches the call. -/
theorem end_flag_defaults_to_head (startFlag pathFlag : String)
    (args : List String) (getwd : Except String String) (w : World)
    (hs : startFlag ≠ "") (ha : args ≠ [])
    (hp : pathFlag ≠ "" ∨ ∃ d, getwd = Except.ok d) :
    (mainGo startFlag "" pathFlag args getwd w).1.calledRun =
      some (startFlag, "HEAD", pathFlag, args) := by
  unfold mainGo
  rw [if_neg hs]
  rcases hp with hp | ⟨d, hd⟩
  · rw [if_neg hp]
    exact mainAfterFlags_calledRun startFlag "HEAD" pathFlag args w ha
  · subst hd
    by_cases hpe : pathFlag = ""
    · rw [if_pos hpe]
      exact mainAfterFlags_calledRun startFlag "HEAD" pathFlag args w ha
    · rw [if_neg hpe]
      exact mainAfterFlags_calledRun startFlag "HEAD" pathFlag args w ha

/-- Witness for C5 at a concrete invocation. -/
theorem end_flag_defaults_to_head_witness :
    (mainGo "v1" "" "/repo" ["make"] (Except.error "no cwd") oneRepoWorld).1.calledRun =
      some ("v1", "HEAD", "/repo", ["make"]) :=
  end_flag_defaults_to_head "v1" "/repo" ["make"] (Except.error "no cwd")
    oneRepoWorld (by decide) (by decide) (Or.inl (by decide))

/-- C6: with a valid repository at /repo in which b is not an ancestor of a,
the run with start b and end a returns nil with an empty event trace instead
of failing with a NotAncestor resolution error: the stub never resolves the
revision range. -/
theorem not_ancestor_not_detected :
    isAncestor repoA "b" "a" = false ∧
    runCommandOnGitRevisions "b" "a" "/repo" ["make"] oneRepoWorld =
      (Except.ok (), [], oneRepoWorld) :=
  ⟨by decide, rfl⟩

/-- C7: with a valid repository and start equal to end (both the revision a,
a valid one-revision range), the stub executes the user command zero times
instead of exactly once: the run returns nil with an empty event trace. -/
theorem equal_revisions_run_nothing :
    isAncestor repoA "a" "a" = true ∧
    (runCommandOnGitRevisions "a" "a" "/repo" ["make"] oneRepoWorld).2.1 = [] ∧
    (runCommandOnGitRevisions "a" "a" "/repo" ["make"] oneRepoWorld).1 =
      Except.ok () :=
  ⟨by decide, rfl, rfl⟩

/-- C8: runCommandOnGitRevisions has no side effect on the repository
collaborator, and neither has the whole of main: the world, which carries
every commit graph, every ref and every checked-out position, comes back
unchanged for every input. -/
theorem resolution_no_side_effects (start endRev path : String)
    (args : List String) (getwd : Except String String) (w : World) :
    (runCommandOnGitRevisions start endRev path args w).2.2 = w ∧
    (mainGo start endRev path args getwd w).2 = w :=
  ⟨run_world start endRev path args w,
   mainGo_world start endRev path args getwd w⟩

/-- C9: for every path holding a valid repository, runCommandOnGitRevisions
returns nil, executes no command and emits no per-revision report, whatever
the revisions and the command arguments. -/
theorem valid_repo_run_succeeds (start endRev path : String)
    (args : List String) (w : World) (r : Repo) (hw : w path = some r) :
    runCommandOnGitRevisions start endRev path args w =
      (Except.ok (), [], w) := by
  unfold runCommandOnGitRevisions plainOpen
  rw [hw]

/-- Witness for C9 at the concrete one-repository world. -/
theorem valid_repo_run_succeeds_witness :
    runCommandOnGitRevisions "v1" "v2" "/repo" ["make"] oneRepoWorld =
      (Except.ok (), [], oneRepoWorld) :=
  valid_repo_run_succeeds "v1" "v2" "/repo" ["make"] oneRepoWorld repoA rfl

/-- C10: the result of runCommandOnGitRevisions depends only on the path:
two invocations with the same path and world but arbitrary revisions and
arguments return identical results, and the result is nil exactly when the
world holds a repository at the path. -/
theorem run_ignores_revisions_and_args (path : String) (w : World)
    (s1 e1 s2 e2 : String) (a1 a2 : List String) :
    runCommandOnGitRevisions s1 e1 path a1 w =
      runCommandOnGitRevisions s2 e2 path a2 w ∧
    ((runCommandOnGitRevisions s1 e1 path a1 w).1 = Except.ok () ↔
      (w path).isSome = true) := by
  unfold runCommandOnGitRevisions plainOpen
  cases h : w path <;> simp [h]
